import Mathlib

/-!
Shallow embedding of the transaction query module of `src/lab1/script.js`
(the array of five sample transactions and the free-standing query and
aggregation functions over a list of transactions), together with proofs
of the behavioural properties stated about it.

Modelling conventions:
* `transaction_date` strings `"YYYY-MM-DD"` are modelled as a `Date`
  structure of calendar parts; the JavaScript string comparison on
  zero-padded ISO dates coincides with lexicographic comparison of
  `(year, month, day)`.
* JavaScript numbers on the amounts are modelled as rationals `ℚ`
  (every amount in the module is an exact decimal and every operation is
  `+` and `/`, which are exact here).
* `undefined`-able parameters become `Option` arguments,
  `Array.prototype.find`'s possible `undefined` result becomes `Option`,
  and `null` from `findMostTransactionsMonth` becomes `none`.
-/

/-- Calendar date `YYYY-MM-DD`, the parsed view of a `transaction_date`
string. -/
structure Date where
  year : Nat
  month : Nat
  day : Nat
deriving DecidableEq, Repr

/-- Date order `a ≤ b`: the order the source gets by comparing zero-padded
ISO `YYYY-MM-DD` strings with JavaScript `<=`, i.e. lexicographic on
`(year, month, day)`. -/
def Date.isLe (a b : Date) : Bool :=
  a.year < b.year ||
    (a.year == b.year &&
      (a.month < b.month || (a.month == b.month && a.day ≤ b.day)))

/-- One transaction record, after the `@typedef {Object} Transaction`
in the source. -/
structure Transaction where
  transaction_id : String
  transaction_date : Date
  transaction_amount : ℚ
  transaction_type : String
  transaction_description : String
  merchant_name : String
  card_type : String
deriving DecidableEq, Repr

/-- Record with id `"1"` of the sample dataset. -/
def tx1 : Transaction :=
  { transaction_id := "1"
    transaction_date := ⟨2019, 1, 1⟩
    transaction_amount := 100
    transaction_type := "debit"
    transaction_description := "Payment for groceries"
    merchant_name := "SuperMart"
    card_type := "debit" }

/-- Record with id `"2"` of the sample dataset. -/
def tx2 : Transaction :=
  { transaction_id := "2"
    transaction_date := ⟨2019, 1, 5⟩
    transaction_amount := 150
    transaction_type := "credit"
    transaction_description := "Refund for returned item"
    merchant_name := "SuperMart"
    card_type := "credit" }

/-- Record with id `"3"` of the sample dataset. -/
def tx3 : Transaction :=
  { transaction_id := "3"
    transaction_date := ⟨2019, 2, 10⟩
    transaction_amount := 50
    transaction_type := "debit"
    transaction_description := "Dinner with friends"
    merchant_name := "RestaurantABC"
    card_type := "debit" }

/-- Record with id `"4"` of the sample dataset. -/
def tx4 : Transaction :=
  { transaction_id := "4"
    transaction_date := ⟨2019, 2, 15⟩
    transaction_amount := 200
    transaction_type := "debit"
    transaction_description := "Electronics purchase"
    merchant_name := "TechStore"
    card_type := "credit" }

/-- Record with id `"5"` of the sample dataset. -/
def tx5 : Transaction :=
  { transaction_id := "5"
    transaction_date := ⟨2019, 3, 20⟩
    transaction_amount := 80
    transaction_type := "debit"
    transaction_description := "Clothing shopping"
    merchant_name := "FashionOutlet"
    card_type := "credit" }

/-- The fixed five-record sample dataset `const transactions = [...]`. -/
def transactions : List Transaction := [tx1, tx2, tx3, tx4, tx5]

/-- Insertion-ordered set semantics of `new Set(...)`: built by inserting the elements of a list in order into
an insertion-ordered set whose current contents are `seen`; returns the
newly inserted elements in insertion order (what `Array.from` reads off). -/
def addToSet (seen : List String) : List String → List String
  | [] => []
  | a :: l => if a ∈ seen then addToSet seen l else a :: addToSet (a :: seen) l

/-- Source `getUniqueTransactionTypes`: `Array.from(new Set(transactions.map(t =>
t.transaction_type)))`. -/
def getUniqueTransactionTypes (txs : List Transaction) : List String :=
  addToSet [] (txs.map (fun t => t.transaction_type))

/-- Source `calculateTotalAmount`: `reduce((sum, t) => sum + t.transaction_amount, 0)`. -/
def calculateTotalAmount (txs : List Transaction) : ℚ :=
  txs.foldl (fun sum t => sum + t.transaction_amount) 0

/-- The filter predicate of `calculateTotalAmountByDate`: each provided
part must match the corresponding calendar part of the record's date, an
omitted (`undefined`) part matches everything. -/
def matchesDateParts (year month day : Option Nat) (t : Transaction) : Bool :=
  (match year with
    | none => true
    | some y => t.transaction_date.year == y) &&
  (match month with
    | none => true
    | some m => t.transaction_date.month == m) &&
  (match day with
    | none => true
    | some d => t.transaction_date.day == d)

/-- Source `calculateTotalAmountByDate(transactions, year, month, day)`:
filter by the provided date parts, then sum the amounts. -/
def calculateTotalAmountByDate (txs : List Transaction)
    (year month day : Option Nat) : ℚ :=
  (txs.filter (matchesDateParts year month day)).foldl
    (fun sum t => sum + t.transaction_amount) 0

/-- Source `getTransactionByType`: `filter(t => t.transaction_type === type)`. -/
def getTransactionByType (txs : List Transaction) (type : String) :
    List Transaction :=
  txs.filter (fun t => t.transaction_type == type)

/-- Source `getTransactionsInDateRange`: `filter(t => t.transaction_date >=
startDate && t.transaction_date <= endDate)`. -/
def getTransactionsInDateRange (txs : List Transaction)
    (startDate endDate : Date) : List Transaction :=
  txs.filter (fun t =>
    Date.isLe startDate t.transaction_date &&
      Date.isLe t.transaction_date endDate)

/-- Source `calculateAverageTransactionAmount`: `0` for an empty array, otherwise
`calculateTotalAmount(transactions) / transactions.length`. -/
def calculateAverageTransactionAmount (txs : List Transaction) : ℚ :=
  if txs.length = 0 then 0
  else calculateTotalAmount txs / txs.length

/-- Source `calculateTotalDebitAmount`: filter to `transaction_type === 'debit'`,
then sum the amounts. -/
def calculateTotalDebitAmount (txs : List Transaction) : ℚ :=
  (txs.filter (fun t => t.transaction_type == "debit")).foldl
    (fun sum t => sum + t.transaction_amount) 0

/-- Months of the records, in record order: each record contributes
`new Date(t.transaction_date).getMonth() + 1`, i.e. the `MM` part. -/
def monthsOf (txs : List Transaction) : List Nat :=
  txs.map (fun t => t.transaction_date.month)

/-- Entry `counts[m]` of `findMostTransactionsMonth`: how many records fall in
month `m`. -/
def monthCount (txs : List Transaction) (m : Nat) : Nat :=
  (monthsOf txs).count m

/-- Keys `Object.keys(counts)` of `findMostTransactionsMonth`: the distinct
months occurring in `txs`. JavaScript enumerates integer-like object keys
in ascending numeric order (not insertion order), so the keys come out
sorted. -/
def monthKeys (txs : List Transaction) : List Nat :=
  List.insertionSort (· ≤ ·) (monthsOf txs).dedup

/-- Source `findMostTransactionsMonth`: `null` for an empty array, otherwise
`Object.keys(counts).reduce((a, b) => counts[a] > counts[b] ? a : b)` —
a fold over the key list that keeps the accumulator only when its count
is strictly greater, so a tie moves to the later key. -/
def findMostTransactionsMonth (txs : List Transaction) : Option Nat :=
  if txs.length = 0 then none
  else
    match monthKeys txs with
    | [] => none
    | k :: ks =>
        some (ks.foldl
          (fun a b => if monthCount txs a > monthCount txs b then a else b) k)

/-- Source `findMostDebitTransactionMonth`: restrict to debit records, then reuse
`findMostTransactionsMonth`. -/
def findMostDebitTransactionMonth (txs : List Transaction) : Option Nat :=
  findMostTransactionsMonth (txs.filter (fun t => t.transaction_type == "debit"))

/-- Source `mostTransactionTypes`: compare the number of debit and credit
records. -/
def mostTransactionTypes (txs : List Transaction) : String :=
  let debitCount := (txs.filter (fun t => t.transaction_type == "debit")).length
  let creditCount := (txs.filter (fun t => t.transaction_type == "credit")).length
  if debitCount > creditCount then "debit"
  else if creditCount > debitCount then "credit"
  else "equal"

/-- Source `findTransactionById`: `transactions.find(t => t.transaction_id === id)`. -/
def findTransactionById (txs : List Transaction) (id : String) :
    Option Transaction :=
  txs.find? (fun t => t.transaction_id == id)

/-! ### Bridge lemmas between the source's `reduce` folds and `List.sum` -/

/-- The running `reduce((sum, t) => sum + t.transaction_amount, s)` is `s`
plus the sum of the amounts. -/
lemma foldl_add_amount_eq (l : List Transaction) (s : ℚ) :
    l.foldl (fun sum t => sum + t.transaction_amount) s
      = s + (l.map (fun t => t.transaction_amount)).sum := by
  induction l generalizing s with
  | nil => simp
  | cons t l ih => simp [ih, add_assoc]

lemma calculateTotalAmount_eq_sum (txs : List Transaction) :
    calculateTotalAmount txs = (txs.map (fun t => t.transaction_amount)).sum := by
  simpa using foldl_add_amount_eq txs 0

lemma calculateTotalDebitAmount_eq_sum (txs : List Transaction) :
    calculateTotalDebitAmount txs
      = ((txs.filter (fun t => t.transaction_type == "debit")).map
          (fun t => t.transaction_amount)).sum := by
  simpa using
    foldl_add_amount_eq (txs.filter (fun t => t.transaction_type == "debit")) 0

/-- The sample total, separated out because several results reuse it. -/
lemma totalAmount_sample : calculateTotalAmount transactions = 580 := by
  rw [calculateTotalAmount_eq_sum]
  norm_num [transactions, tx1, tx2, tx3, tx4, tx5]

/-! ### The claims -/

/-- C2: on the fixed five-record sample dataset, `calculateTotalAmount`
returns `580.0`, `calculateTotalDebitAmount` returns `430.0`,
`calculateAverageTransactionAmount` returns `116.0`,
`mostTransactionTypes` returns `"debit"`, and
`findMostTransactionsMonth` returns month `2`. -/
theorem sample_dataset_values :
    calculateTotalAmount transactions = 580 ∧
    calculateTotalDebitAmount transactions = 430 ∧
    calculateAverageTransactionAmount transactions = 116 ∧
    mostTransactionTypes transactions = "debit" ∧
    findMostTransactionsMonth transactions = some 2 := by
  refine ⟨totalAmount_sample, ?_, ?_, by decide, by decide⟩
  · rw [calculateTotalDebitAmount_eq_sum]
    have h : transactions.filter (fun t => t.transaction_type == "debit")
        = [tx1, tx3, tx4, tx5] := rfl
    rw [h]
    norm_num [tx1, tx3, tx4, tx5]
  · rw [calculateAverageTransactionAmount, totalAmount_sample]
    norm_num [transactions]

/-- C3: for a non-empty collection the average is the total divided by the
number of records, and for the empty collection it is `0`. -/
theorem calculateAverageTransactionAmount_spec (txs : List Transaction) :
    (txs ≠ [] →
      calculateAverageTransactionAmount txs
        = calculateTotalAmount txs / txs.length) ∧
    (txs = [] → calculateAverageTransactionAmount txs = 0) := by
  constructor
  · intro h
    rw [calculateAverageTransactionAmount,
      if_neg (fun hlen => h (List.length_eq_zero.mp hlen))]
  · intro h
    subst h
    rfl

/-- Witness for C3 at the sample dataset and at the empty collection. -/
theorem calculateAverageTransactionAmount_spec_witness :
    calculateAverageTransactionAmount transactions
        = calculateTotalAmount transactions / transactions.length ∧
    calculateAverageTransactionAmount [] = 0 :=
  ⟨(calculateAverageTransactionAmount_spec transactions).1
      (List.cons_ne_nil tx1 [tx2, tx3, tx4, tx5]),
    (calculateAverageTransactionAmount_spec []).2 rfl⟩

/-- C9: `calculateTotalAmountByDate` with year, month and day all omitted
agrees with `calculateTotalAmount`. -/
theorem calculateTotalAmountByDate_none_eq_totalAmount
    (txs : List Transaction) :
    calculateTotalAmountByDate txs none none none = calculateTotalAmount txs := by
  rw [calculateTotalAmountByDate, calculateTotalAmount]
  have h : txs.filter (matchesDateParts none none none) = txs := by
    simp [matchesDateParts]
  rw [h]

/-- C8: filtering by the same date range twice gives the same result as
filtering once. -/
theorem getTransactionsInDateRange_idem (txs : List Transaction)
    (startDate endDate : Date) :
    getTransactionsInDateRange
        (getTransactionsInDateRange txs startDate endDate) startDate endDate
      = getTransactionsInDateRange txs startDate endDate := by
  rw [getTransactionsInDateRange, getTransactionsInDateRange,
    List.filter_filter]
  simp

/-- Dropping records from a list of non-negative amounts can only lower
the sum of amounts. -/
lemma sum_map_filter_le (p : Transaction → Bool) (l : List Transaction)
    (h : ∀ t ∈ l, 0 ≤ t.transaction_amount) :
    ((l.filter p).map (fun t => t.transaction_amount)).sum
      ≤ (l.map (fun t => t.transaction_amount)).sum := by
  induction l with
  | nil => simp
  | cons t l ih =>
    have ht : 0 ≤ t.transaction_amount := h t (List.mem_cons_self t l)
    have ih' := ih (fun u hu => h u (List.mem_cons_of_mem t hu))
    by_cases hp : p t
    · rw [List.filter_cons_of_pos hp]
      simpa using add_le_add_left ih' t.transaction_amount
    · rw [List.filter_cons_of_neg hp]
      simp only [List.map_cons, List.sum_cons]
      calc ((l.filter p).map (fun t => t.transaction_amount)).sum
          ≤ (l.map (fun t => t.transaction_amount)).sum := ih'
        _ ≤ t.transaction_amount
              + (l.map (fun t => t.transaction_amount)).sum :=
            le_add_of_nonneg_left ht

/-- C4: when every amount is non-negative, the debit total never exceeds
the overall total. -/
theorem calculateTotalDebitAmount_le_totalAmount (txs : List Transaction)
    (h : ∀ t ∈ txs, 0 ≤ t.transaction_amount) :
    calculateTotalDebitAmount txs ≤ calculateTotalAmount txs := by
  rw [calculateTotalDebitAmount_eq_sum, calculateTotalAmount_eq_sum]
  exact sum_map_filter_le (fun t => t.transaction_type == "debit") txs h

/-- Witness for C4 at the sample dataset. -/
theorem calculateTotalDebitAmount_le_totalAmount_witness :
    calculateTotalDebitAmount transactions ≤ calculateTotalAmount transactions :=
  calculateTotalDebitAmount_le_totalAmount transactions (by
    intro t ht
    simp only [transactions, List.mem_cons, List.not_mem_nil, or_false] at ht
    rcases ht with rfl | rfl | rfl | rfl | rfl <;>
      norm_num [tx1, tx2, tx3, tx4, tx5])

/-- C7: the type filter returns exactly the records of the requested type,
as a sublist (hence in the original relative order), and the debit and
credit filters together account for every record when those are the only
two types present. -/
theorem getTransactionByType_spec (txs : List Transaction) (type : String) :
    (∀ t ∈ getTransactionByType txs type, t.transaction_type = type) ∧
    List.Sublist (getTransactionByType txs type) txs ∧
    ((∀ t ∈ txs, t.transaction_type = "debit" ∨ t.transaction_type = "credit") →
      (getTransactionByType txs "debit").length
          + (getTransactionByType txs "credit").length = txs.length) := by
  refine ⟨?_, List.filter_sublist txs, ?_⟩
  · intro t ht
    have := (List.mem_filter.mp ht).2
    exact beq_iff_eq.mp this
  · intro h
    induction txs with
    | nil => rfl
    | cons t l ih =>
      have ht := h t (List.mem_cons_self t l)
      have ih' := ih (fun u hu => h u (List.mem_cons_of_mem t hu))
      have hne : ("credit" : String) ≠ "debit" := by decide
      rcases ht with h1 | h1 <;>
        simp only [getTransactionByType, List.filter_cons, h1, beq_iff_eq,
          hne, Ne.symm hne, if_true, if_false, List.length_cons,
          List.length] at ih' ⊢ <;>
        omega

/-- Witness for C7: on the sample dataset, record `tx1` of the debit
filter indeed has type `"debit"`, and the debit and credit filters
together cover all five records. -/
theorem getTransactionByType_spec_witness :
    tx1.transaction_type = "debit" ∧
    (getTransactionByType transactions "debit").length
        + (getTransactionByType transactions "credit").length
      = transactions.length :=
  ⟨(getTransactionByType_spec transactions "debit").1 tx1
      (by rw [show getTransactionByType transactions "debit"
              = [tx1, tx3, tx4, tx5] from rfl]
          exact List.mem_cons_self tx1 [tx3, tx4, tx5]),
    (getTransactionByType_spec transactions "debit").2.2 (by
      intro t ht
      simp only [transactions, List.mem_cons, List.not_mem_nil, or_false] at ht
      rcases ht with rfl | rfl | rfl | rfl | rfl <;> simp [tx1, tx2, tx3, tx4, tx5])⟩

/-- Helper: `find?` on the id predicate locates the first matching record: the
list splits as `l₁ ++ t :: l₂` with no match in `l₁`. -/
lemma findTransactionById_first (id : String) :
    ∀ txs : List Transaction, ∀ t₀ ∈ txs, t₀.transaction_id = id →
      ∃ l₁ t l₂, txs = l₁ ++ t :: l₂ ∧
        findTransactionById txs id = some t ∧
        t.transaction_id = id ∧
        ∀ u ∈ l₁, u.transaction_id ≠ id := by
  intro txs
  induction txs with
  | nil => intro t₀ ht₀; exact absurd ht₀ (List.not_mem_nil t₀)
  | cons a l ih =>
    intro t₀ ht₀ hid
    by_cases ha : a.transaction_id = id
    · refine ⟨[], a, l, rfl, ?_, ha, by intro u hu; exact absurd hu (List.not_mem_nil u)⟩
      rw [findTransactionById]
      exact List.find?_cons_of_pos l (beq_iff_eq.mpr ha)
    · have ht₀l : t₀ ∈ l := by
        rcases List.mem_cons.mp ht₀ with rfl | h
        · exact absurd hid ha
        · exact h
      obtain ⟨l₁, t, l₂, heq, hfind, hid', hnone⟩ := ih t₀ ht₀l hid
      refine ⟨a :: l₁, t, l₂, by rw [heq]; rfl, ?_, hid', ?_⟩
      · rw [findTransactionById,
          List.find?_cons_of_neg l (fun hb => ha (beq_iff_eq.mp hb))]
        exact hfind
      · intro u hu
        rcases List.mem_cons.mp hu with rfl | h
        · exact ha
        · exact hnone u h

/-- C5: `findTransactionById` returns the first record carrying the
requested id when one exists, and `none` when no record does. -/
theorem findTransactionById_spec (txs : List Transaction) (id : String) :
    ((∀ t ∈ txs, t.transaction_id ≠ id) → findTransactionById txs id = none) ∧
    (∀ t₀ ∈ txs, t₀.transaction_id = id →
      ∃ l₁ t l₂, txs = l₁ ++ t :: l₂ ∧
        findTransactionById txs id = some t ∧
        t.transaction_id = id ∧
        ∀ u ∈ l₁, u.transaction_id ≠ id) := by
  constructor
  · intro h
    rw [findTransactionById]
    exact List.find?_eq_none.mpr (fun t ht hb => h t ht (beq_iff_eq.mp hb))
  · exact findTransactionById_first id txs

/-- Witness for C5: looking up id `"3"` in the sample dataset finds the
first (and only) record with that id. -/
theorem findTransactionById_spec_witness :
    ∃ l₁ t l₂, transactions = l₁ ++ t :: l₂ ∧
      findTransactionById transactions "3" = some t ∧
      t.transaction_id = "3" ∧
      ∀ u ∈ l₁, u.transaction_id ≠ "3" :=
  (findTransactionById_spec transactions "3").2 tx3
    (List.mem_cons_of_mem tx1 (List.mem_cons_of_mem tx2
      (List.mem_cons_self tx3 [tx4, tx5]))) rfl

/-- The spec's matching relation for `calculateTotalAmountByDate`: the
record's calendar date agrees with every provided part, an omitted part
matching all values. -/
def MatchesProvidedParts (year month day : Option Nat) (t : Transaction) : Prop :=
  (∀ y, year = some y → t.transaction_date.year = y) ∧
  (∀ m, month = some m → t.transaction_date.month = m) ∧
  (∀ d, day = some d → t.transaction_date.day = d)

/-- The source's boolean date filter decides exactly the spec's matching
relation. -/
lemma matchesDateParts_iff (year month day : Option Nat) (t : Transaction) :
    matchesDateParts year month day t = true
      ↔ MatchesProvidedParts year month day t := by
  rcases year with _ | y <;> rcases month with _ | m <;> rcases day with _ | d
  all_goals simp [matchesDateParts, MatchesProvidedParts]
  all_goals tauto

/-- C6: `calculateTotalAmountByDate` sums the amounts of exactly the
records whose date agrees with every provided part (an omitted part
matching everything), is `0` whenever no record matches (in particular on
the empty collection), and returns `250.0` on the sample dataset for
year `2019`, month `1`. -/
theorem calculateTotalAmountByDate_spec :
    (∀ txs year month day,
      calculateTotalAmountByDate txs year month day
        = ((txs.filter (matchesDateParts year month day)).map
            (fun t => t.transaction_amount)).sum) ∧
    (∀ year month day t,
      matchesDateParts year month day t = true
        ↔ MatchesProvidedParts year month day t) ∧
    (∀ year month day, calculateTotalAmountByDate [] year month day = 0) ∧
    (∀ txs year month day,
      (∀ t ∈ txs, ¬ MatchesProvidedParts year month day t) →
        calculateTotalAmountByDate txs year month day = 0) ∧
    calculateTotalAmountByDate transactions (some 2019) (some 1) none = 250 := by
  have hsum : ∀ txs year month day,
      calculateTotalAmountByDate txs year month day
        = ((txs.filter (matchesDateParts year month day)).map
            (fun t => t.transaction_amount)).sum := by
    intro txs year month day
    rw [calculateTotalAmountByDate]
    simpa using
      foldl_add_amount_eq (txs.filter (matchesDateParts year month day)) 0
  refine ⟨hsum, matchesDateParts_iff, fun year month day => rfl, ?_, ?_⟩
  · intro txs year month day h
    rw [hsum]
    have hnil : txs.filter (matchesDateParts year month day) = [] :=
      List.filter_eq_nil_iff.mpr (fun t ht hb =>
        h t ht ((matchesDateParts_iff year month day t).mp hb))
    rw [hnil]
    rfl
  · rw [hsum]
    have h : transactions.filter (matchesDateParts (some 2019) (some 1) none)
        = [tx1, tx2] := rfl
    rw [h]
    norm_num [tx1, tx2]

/-- Witness for C6: no sample record is dated year `1999`, so the sum over
that year is `0`. -/
theorem calculateTotalAmountByDate_spec_witness :
    calculateTotalAmountByDate transactions (some 1999) none none = 0 :=
  calculateTotalAmountByDate_spec.2.2.2.1 transactions (some 1999) none none
    (by
      intro t ht hM
      have hy := hM.1 1999 rfl
      simp only [transactions, List.mem_cons, List.not_mem_nil, or_false] at ht
      rcases ht with rfl | rfl | rfl | rfl | rfl <;>
        simp [tx1, tx2, tx3, tx4, tx5] at hy)

/-- Core facts about insertion-ordered set construction: the output
collects exactly the not-yet-seen elements, without duplicates, ordered
by the position of their first occurrence in the input list. -/
lemma addToSet_spec (l : List String) : ∀ seen : List String,
    (∀ s, s ∈ addToSet seen l ↔ s ∈ l ∧ s ∉ seen) ∧
    (addToSet seen l).Nodup ∧
    List.Pairwise (fun a b => l.indexOf a < l.indexOf b) (addToSet seen l) := by
  induction l with
  | nil => intro seen; simp [addToSet]
  | cons a l ih =>
    intro seen
    by_cases ha : a ∈ seen
    · obtain ⟨hmem, hnodup, hpair⟩ := ih seen
      rw [addToSet, if_pos ha]
      refine ⟨?_, hnodup, ?_⟩
      · intro s
        rw [hmem s, List.mem_cons]
        constructor
        · rintro ⟨h1, h2⟩
          exact ⟨Or.inr h1, h2⟩
        · rintro ⟨h1 | h1, h2⟩
          · exact absurd (h1 ▸ ha) h2
          · exact ⟨h1, h2⟩
      · refine hpair.imp_of_mem ?_
        intro x y hx hy hxy
        have hxa : x ≠ a := fun h => ((hmem x).mp hx).2 (h ▸ ha)
        have hya : y ≠ a := fun h => ((hmem y).mp hy).2 (h ▸ ha)
        rw [List.indexOf_cons_ne l (Ne.symm hxa),
          List.indexOf_cons_ne l (Ne.symm hya)]
        exact Nat.succ_lt_succ hxy
    · obtain ⟨hmem, hnodup, hpair⟩ := ih (a :: seen)
      rw [addToSet, if_neg ha]
      have hne : ∀ s ∈ addToSet (a :: seen) l, s ≠ a := fun s hs h =>
        ((hmem s).mp hs).2 (h ▸ List.mem_cons_self a seen)
      refine ⟨?_, ?_, ?_⟩
      · intro s
        rw [List.mem_cons, List.mem_cons]
        constructor
        · rintro (rfl | hs)
          · exact ⟨Or.inl rfl, ha⟩
          · obtain ⟨h1, h2⟩ := (hmem s).mp hs
            exact ⟨Or.inr h1, fun hss => h2 (List.mem_cons_of_mem a hss)⟩
        · rintro ⟨h1 | h1, h2⟩
          · exact Or.inl h1
          · by_cases hsa : s = a
            · exact Or.inl hsa
            · exact Or.inr ((hmem s).mpr
                ⟨h1, fun hss => (List.mem_cons.mp hss).elim hsa h2⟩)
      · exact List.nodup_cons.mpr
          ⟨fun h => hne a h rfl, hnodup⟩
      · refine List.pairwise_cons.mpr ⟨?_, ?_⟩
        · intro b hb
          rw [List.indexOf_cons_self a l,
            List.indexOf_cons_ne l (Ne.symm (hne b hb))]
          exact Nat.succ_pos _
        · refine hpair.imp_of_mem ?_
          intro x y hx hy hxy
          rw [List.indexOf_cons_ne l (Ne.symm (hne x hx)),
            List.indexOf_cons_ne l (Ne.symm (hne y hy))]
          exact Nat.succ_lt_succ hxy

/-- C10: the unique-type list repeats no value, contains exactly the
`transaction_type` values occurring in the input, and lists them in order
of first occurrence (strictly increasing index of first occurrence). -/
theorem getUniqueTransactionTypes_spec (txs : List Transaction) :
    (getUniqueTransactionTypes txs).Nodup ∧
    (∀ s, s ∈ getUniqueTransactionTypes txs
      ↔ s ∈ txs.map (fun t => t.transaction_type)) ∧
    List.Pairwise
      (fun a b => (txs.map (fun t => t.transaction_type)).indexOf a
        < (txs.map (fun t => t.transaction_type)).indexOf b)
      (getUniqueTransactionTypes txs) := by
  obtain ⟨hmem, hnodup, hpair⟩ :=
    addToSet_spec (txs.map (fun t => t.transaction_type)) []
  exact ⟨hnodup, fun s => by simpa using hmem s, hpair⟩


/-- The reduction `(a, b) => counts[a] > counts[b] ? a : b`, folded from
initial key `k` over the remaining keys `ks`. -/
def pickMax (c : Nat → Nat) (k : Nat) (ks : List Nat) : Nat :=
  ks.foldl (fun a b => if c a > c b then a else b) k

/-- Over an ascending key list, the reduction lands on a key of maximal
count, and on the largest among the keys tied for that maximal count
(a tie moves the accumulator to the later, hence larger, key). -/
lemma pickMax_spec (c : Nat → Nat) :
    ∀ (ks : List Nat) (k : Nat), List.Sorted (· ≤ ·) (k :: ks) →
      pickMax c k ks ∈ k :: ks ∧
      (∀ b ∈ k :: ks, c b ≤ c (pickMax c k ks)) ∧
      (∀ b ∈ k :: ks, c b = c (pickMax c k ks) → b ≤ pickMax c k ks) := by
  intro ks
  induction ks with
  | nil =>
    intro k _
    refine ⟨List.mem_cons_self k [], ?_, ?_⟩
    · intro b hb
      rcases List.mem_cons.mp hb with rfl | h
      · exact le_refl _
      · exact absurd h (List.not_mem_nil b)
    · intro b hb _
      rcases List.mem_cons.mp hb with rfl | h
      · exact le_refl _
      · exact absurd h (List.not_mem_nil b)
  | cons b ks ih =>
    intro k hs
    obtain ⟨hk, hs'⟩ := List.sorted_cons.mp hs
    have hfold : pickMax c k (b :: ks)
        = pickMax c (if c k > c b then k else b) ks := rfl
    by_cases hcb : c k > c b
    · rw [hfold, if_pos hcb]
      have hsk : List.Sorted (· ≤ ·) (k :: ks) :=
        List.sorted_cons.mpr
          ⟨fun x hx => hk x (List.mem_cons_of_mem b hx),
            (List.sorted_cons.mp hs').2⟩
      obtain ⟨hmem, hmax, htie⟩ := ih k hsk
      have hkr : c k ≤ c (pickMax c k ks) := hmax k (List.mem_cons_self k ks)
      have hbr : c b < c (pickMax c k ks) := lt_of_lt_of_le hcb hkr
      refine ⟨?_, ?_, ?_⟩
      · rcases List.mem_cons.mp hmem with h | h
        · rw [h]
          exact List.mem_cons_self k (b :: ks)
        · exact List.mem_cons_of_mem _ (List.mem_cons_of_mem b h)
      · intro x hx
        rcases List.mem_cons.mp hx with rfl | hx'
        · exact hkr
        · rcases List.mem_cons.mp hx' with rfl | hx''
          · exact le_of_lt hbr
          · exact hmax x (List.mem_cons_of_mem k hx'')
      · intro x hx hcx
        rcases List.mem_cons.mp hx with rfl | hx'
        · exact htie x (List.mem_cons_self x ks) hcx
        · rcases List.mem_cons.mp hx' with rfl | hx''
          · exact absurd hcx (ne_of_lt hbr)
          · exact htie x (List.mem_cons_of_mem k hx'') hcx
    · rw [hfold, if_neg hcb]
      have hkb : c k ≤ c b := Nat.not_lt.mp hcb
      obtain ⟨hmem, hmax, htie⟩ := ih b hs'
      have hbr : c b ≤ c (pickMax c b ks) := hmax b (List.mem_cons_self b ks)
      refine ⟨List.mem_cons_of_mem k hmem, ?_, ?_⟩
      · intro x hx
        rcases List.mem_cons.mp hx with rfl | hx'
        · exact hkb.trans hbr
        · exact hmax x hx'
      · intro x hx hcx
        rcases List.mem_cons.mp hx with rfl | hx'
        · exact hk (pickMax c b ks) hmem
        · exact htie x hx' hcx

/-- The keys enumerated by `findMostTransactionsMonth` are exactly the
months occurring in the collection. -/
lemma mem_monthKeys (txs : List Transaction) (m : Nat) :
    m ∈ monthKeys txs ↔ m ∈ monthsOf txs := by
  rw [monthKeys, List.mem_insertionSort, List.mem_dedup]

/-- C1 (amended): `findMostTransactionsMonth` returns `none` exactly on
the empty collection; on a non-empty collection it returns a month of
maximal transaction count, and among months tied for that maximal count
the numerically largest one — JavaScript enumerates the integer-like month
keys in ascending numeric order and the reduction hands a tie to the
later key, so ties go to the largest tied month, not the first
encountered. -/
theorem findMostTransactionsMonth_spec (txs : List Transaction) :
    (findMostTransactionsMonth txs = none ↔ txs = []) ∧
    (txs ≠ [] → ∃ m, findMostTransactionsMonth txs = some m ∧
      m ∈ monthsOf txs ∧
      (∀ k ∈ monthsOf txs, monthCount txs k ≤ monthCount txs m) ∧
      (∀ k ∈ monthsOf txs, monthCount txs k = monthCount txs m → k ≤ m)) := by
  have hmain : txs ≠ [] → ∃ m, findMostTransactionsMonth txs = some m ∧
      m ∈ monthsOf txs ∧
      (∀ k ∈ monthsOf txs, monthCount txs k ≤ monthCount txs m) ∧
      (∀ k ∈ monthsOf txs, monthCount txs k = monthCount txs m → k ≤ m) := by
    intro hne
    have hlen : ¬ txs.length = 0 := fun h0 => hne (List.length_eq_zero.mp h0)
    rcases hkeys : monthKeys txs with _ | ⟨k, ks⟩
    · obtain ⟨t, l, rfl⟩ := List.exists_cons_of_ne_nil hne
      have hmm : t.transaction_date.month ∈ monthKeys (t :: l) :=
        (mem_monthKeys (t :: l) t.transaction_date.month).mpr
          (by rw [monthsOf]; exact List.mem_map_of_mem _ (List.mem_cons_self t l))
      rw [hkeys] at hmm
      exact absurd hmm (List.not_mem_nil _)
    · have hsorted : List.Sorted (· ≤ ·) (monthKeys txs) :=
        List.sorted_insertionSort (· ≤ ·) (monthsOf txs).dedup
      rw [hkeys] at hsorted
      obtain ⟨hmem, hmax, htie⟩ := pickMax_spec (monthCount txs) ks k hsorted
      refine ⟨pickMax (monthCount txs) k ks, ?_, ?_, ?_, ?_⟩
      · rw [findMostTransactionsMonth, if_neg hlen, hkeys]
        rfl
      · rw [← mem_monthKeys, hkeys]
        exact hmem
      · intro k' hk'
        have : k' ∈ monthKeys txs := (mem_monthKeys txs k').mpr hk'
        rw [hkeys] at this
        exact hmax k' this
      · intro k' hk'
        have : k' ∈ monthKeys txs := (mem_monthKeys txs k').mpr hk'
        rw [hkeys] at this
        exact htie k' this
  refine ⟨⟨?_, ?_⟩, hmain⟩
  · intro h
    by_contra hne
    obtain ⟨m, hm, _⟩ := hmain hne
    rw [h] at hm
    exact Option.noConfusion hm
  · intro h
    subst h
    rfl

/-- Witness for C1 at the sample dataset: month `2` is the result, occurs
in the data, and maximizes the count. -/
theorem findMostTransactionsMonth_spec_witness :
    ∃ m, findMostTransactionsMonth transactions = some m ∧
      m ∈ monthsOf transactions ∧
      (∀ k ∈ monthsOf transactions,
        monthCount transactions k ≤ monthCount transactions m) ∧
      (∀ k ∈ monthsOf transactions,
        monthCount transactions k = monthCount transactions m → k ≤ m) :=
  (findMostTransactionsMonth_spec transactions).2
    (List.cons_ne_nil tx1 [tx2, tx3, tx4, tx5])

/-- Counterexample to C1 as stated: in `[tx1, tx3]` the months are
encountered in the order `1, 2` (which is also the ascending key
iteration order), each month holds exactly one transaction — a tie — yet
the function returns month `2`, not the first-encountered tied month `1`. -/
theorem findMostTransactionsMonth_tie_cex :
    monthsOf [tx1, tx3] = [1, 2] ∧
    monthCount [tx1, tx3] 1 = 1 ∧
    monthCount [tx1, tx3] 2 = 1 ∧
    findMostTransactionsMonth [tx1, tx3] = some 2 ∧
    findMostTransactionsMonth [tx1, tx3] ≠ some 1 := by decide
